import Mathlib

/-!
Shallow embedding of the agreement-comparison core of the repository:
`migration_pilot/comparison.py` (`compare_results`) and the composite
computation of `migration_pilot/run_pilot.py` (`evaluate_with_deepeval`,
lines 62-78).

Modelling conventions:
- a Python dict is an association list `List (String × α)`; lookup takes the
  first matching key (dict keys are unique, so this coincides);
- a raising access `d[k]` is modelled in the `Except PyErr` monad
  (`PyErr.keyError k` plays the role of Python's `KeyError`);
- `d.get(k, default)` is `(alookup d k).getD default`;
- a possibly-missing top-level field of a result record is an `Option`;
- Python floats are `Rat` (the scores are only carried around, never
  combined arithmetically, so exact rationals are a faithful carrier);
- Python truthiness of `result.get("error")` (a string or absent) and of
  `result.get("deepeval_scores")` (a dict or absent/None) is modelled by
  `truthyOptStr` / `truthyScores` (empty string and empty dict are falsy).
-/

/-- Python `KeyError` raised by a `d[k]` access on a missing key. -/
inductive PyErr where
  | keyError (key : String)
deriving DecidableEq, Repr

/-- One entry of the `deepeval_scores` dict built in `run_pilot.py` lines
62-70: `{score, threshold, passed, reason}`.  `reason := none` models the
`"reason"` key being absent (so that `.get("reason", "N/A")` substitutes
the placeholder). -/
structure ScoreEntry where
  score : Rat
  threshold : Rat
  passed : Bool
  reason : Option String
deriving DecidableEq, Repr

/-- One element of the `results` list consumed by `compare_results`.
Every top-level field a record may lack is an `Option`. -/
structure Result where
  file_name : Option String
  question : Option String
  backend_evaluation : Option (List (String × Bool))
  deepeval_scores : Option (List (String × ScoreEntry))
  deepeval_comprehensive_answer : Option Bool
  error : Option String
deriving DecidableEq, Repr

/-- The per-metric statistics dict initialised in `comparison.py` lines
36-45 and updated in lines 66-85. -/
structure MetricStats where
  agreements : Nat
  disagreements : Nat
  total : Nat
  agreement_rate : Rat
  backend_true : Nat
  backend_false : Nat
  deepeval_true : Nat
  deepeval_false : Nat
deriving DecidableEq, Repr

/-- A disagreement entry appended in `comparison.py` lines 88-96. -/
structure Disagreement where
  file_name : String
  question : String
  metric : String
  backend_value : Bool
  deepeval_value : Bool
  deepeval_score : Rat
  deepeval_reason : String
deriving DecidableEq, Repr

/-- The `summary` sub-dict of the comparison output. -/
structure Summary where
  total_cases : Nat
  successful_evaluations : Nat
  failed_evaluations : Nat
  agreement_rate : Rat
deriving DecidableEq, Repr

/-- The `comprehensive_answer_comparison` sub-dict of the output. -/
structure CompositeStats where
  agreements : Nat
  disagreements : Nat
  agreement_rate : Rat
deriving DecidableEq, Repr

/-- The full return value of `compare_results`. -/
structure Comparison where
  summary : Summary
  metric_comparisons : List (String × MetricStats)
  comprehensive_answer_comparison : CompositeStats
  disagreements : List Disagreement
deriving DecidableEq, Repr

/-- Association-list lookup: first entry whose key equals `k`
(Python dict indexing / `.get`). -/
def alookup {β : Type} : List (String × β) → String → Option β
  | [], _ => none
  | (k', v) :: rest, k => if k' = k then some v else alookup rest k

/-- Pointwise update of the entry for key `k` (Python mutates the dict value
in place; keys are unique, so updating every matching entry coincides). -/
def updateA {β : Type} : List (String × β) → String → (β → β) → List (String × β)
  | [], _, _ => []
  | (k', v) :: rest, k, f =>
    (if k' = k then (k', f v) else (k', v)) :: updateA rest k f

/-- A raising `result[k]` access: `KeyError k` when the field is absent. -/
def getKey {α : Type} (o : Option α) (k : String) : Except PyErr α :=
  match o with
  | none => Except.error (PyErr.keyError k)
  | some v => Except.ok v

/-- `comparison.py` line 16: the fixed list of the four metric names. -/
def metric_names : List String :=
  ["is_question_answered", "requires_additional_information",
   "is_speculative", "is_confident"]

/-- Truthiness of `result.get("error")`: absent or empty string is falsy. -/
def truthyOptStr : Option String → Bool
  | none => false
  | some s => !(s == "")

/-- Truthiness of `result.get("deepeval_scores")`: absent/None or empty
dict is falsy. -/
def truthyScores : Option (List (String × ScoreEntry)) → Bool
  | none => false
  | some l => !l.isEmpty

/-- The mutable aggregation state of the loop of `comparison.py` lines
48-110: the counters of `summary` (minus the constant `total_cases`),
the metric dicts, the composite counters and the disagreement list. -/
structure CompState where
  successful : Nat
  failed : Nat
  comp_agreements : Nat
  comp_disagreements : Nat
  metric_comparisons : List (String × MetricStats)
  disagreements : List Disagreement
deriving DecidableEq, Repr

/-- `comparison.py` lines 36-45: the all-zero initial per-metric stats. -/
def initStats : MetricStats :=
  { agreements := 0, disagreements := 0, total := 0, agreement_rate := 0,
    backend_true := 0, backend_false := 0,
    deepeval_true := 0, deepeval_false := 0 }

/-- `comparison.py` lines 18-45: the initial aggregation state. -/
def initState : CompState :=
  { successful := 0, failed := 0, comp_agreements := 0,
    comp_disagreements := 0,
    metric_comparisons := metric_names.map (fun m => (m, initStats)),
    disagreements := [] }

/-- `comparison.py` lines 66-85: the update of one metric's stats for one
record with backend value `bv` and DeepEval verdict `passed`. -/
def tick (bv passed : Bool) (s : MetricStats) : MetricStats :=
  { s with
    total := s.total + 1,
    backend_true := if bv then s.backend_true + 1 else s.backend_true,
    backend_false := if bv then s.backend_false else s.backend_false + 1,
    deepeval_true := if passed then s.deepeval_true + 1 else s.deepeval_true,
    deepeval_false := if passed then s.deepeval_false else s.deepeval_false + 1,
    agreements := if bv == passed then s.agreements + 1 else s.agreements,
    disagreements := if bv == passed then s.disagreements else s.disagreements + 1 }

/-- `comparison.py` lines 59-96, one iteration of the metric loop.
Order of effects matches the source: `backend_eval.get(metric, None)` first,
then the raising `deepeval_scores[metric]` access, then the `None` skip,
then the stats update and (on disagreement) the raising `result["file_name"]`
and `result["question"]` accesses. -/
def processMetric (result : Result) (backend_eval : List (String × Bool))
    (scores : List (String × ScoreEntry))
    (acc : List (String × MetricStats) × List Disagreement)
    (metric : String) :
    Except PyErr (List (String × MetricStats) × List Disagreement) := do
  let backend_value := alookup backend_eval metric
  let entry ← getKey (alookup scores metric) metric
  match backend_value with
  | none => Except.ok acc
  | some bv =>
    let mc := updateA acc.1 metric (tick bv entry.passed)
    if bv == entry.passed then
      Except.ok (mc, acc.2)
    else do
      let fn ← getKey result.file_name "file_name"
      let q ← getKey result.question "question"
      Except.ok (mc, acc.2 ++
        [{ file_name := fn, question := q, metric := metric,
           backend_value := bv, deepeval_value := entry.passed,
           deepeval_score := entry.score,
           deepeval_reason := entry.reason.getD "N/A" }])

/-- `comparison.py` lines 99-104: the backend-side composite boolean,
each flag read with `.get(metric, False)`. -/
def backendComp (backend_eval : List (String × Bool)) : Bool :=
  (alookup backend_eval "is_question_answered").getD false &&
  !((alookup backend_eval "requires_additional_information").getD false) &&
  !((alookup backend_eval "is_speculative").getD false) &&
  (alookup backend_eval "is_confident").getD false

/-- `comparison.py` lines 48-110, the body of the record loop for one
record: failure routing (line 49-51), the raising `result["backend_evaluation"]`
and `result["deepeval_scores"]` accesses, the metric loop, the composite
comparison with the raising `result["deepeval_comprehensive_answer"]` access. -/
def processResult (st : CompState) (result : Result) : Except PyErr CompState :=
  if truthyOptStr result.error || !truthyScores result.deepeval_scores then
    Except.ok { st with failed := st.failed + 1 }
  else do
    let backend_eval ← getKey result.backend_evaluation "backend_evaluation"
    let scores ← getKey result.deepeval_scores "deepeval_scores"
    let acc ← List.foldlM (processMetric result backend_eval scores)
      (st.metric_comparisons, st.disagreements) metric_names
    let deepeval_comp ← getKey result.deepeval_comprehensive_answer
      "deepeval_comprehensive_answer"
    if backendComp backend_eval == deepeval_comp then
      Except.ok
        { st with successful := st.successful + 1,
                  metric_comparisons := acc.1, disagreements := acc.2,
                  comp_agreements := st.comp_agreements + 1 }
    else
      Except.ok
        { st with successful := st.successful + 1,
                  metric_comparisons := acc.1, disagreements := acc.2,
                  comp_disagreements := st.comp_disagreements + 1 }

/-- `comparison.py` lines 112-125: the final rate computation.  The rates
start at `0.0` and are overwritten only when their denominator is positive;
the summary rate is copied from the composite rate inside the same guard. -/
def finalize (n : Nat) (st : CompState) : Comparison :=
  let comp_rate : Rat :=
    if st.successful > 0 then (st.comp_agreements : Rat) / (st.successful : Rat)
    else 0
  let summary_rate : Rat := if st.successful > 0 then comp_rate else 0
  { summary := { total_cases := n, successful_evaluations := st.successful,
                 failed_evaluations := st.failed, agreement_rate := summary_rate },
    metric_comparisons := st.metric_comparisons.map (fun p =>
      (p.1, { p.2 with agreement_rate :=
                if p.2.total > 0 then (p.2.agreements : Rat) / (p.2.total : Rat)
                else 0 })),
    comprehensive_answer_comparison :=
      { agreements := st.comp_agreements,
        disagreements := st.comp_disagreements, agreement_rate := comp_rate },
    disagreements := st.disagreements }

/-- `comparison.py` `compare_results`: the loop over the records followed by
the rate computation.  `Except.error` models an uncaught Python exception
propagating out of the function. -/
def compare_results (results : List Result) : Except PyErr Comparison :=
  Except.map (finalize results.length) (List.foldlM processResult initState results)

/-- `run_pilot.py` lines 73-78: the external-side `comprehensive_answer`
computed by `evaluate_with_deepeval` from the four `passed` values, with
Python's short-circuit evaluation of `and`/`not` over the raising
`deepeval_scores[name]["passed"]` accesses. -/
def comprehensiveAnswer (ds : List (String × ScoreEntry)) : Except PyErr Bool := do
  let a ← getKey (alookup ds "is_question_answered") "is_question_answered"
  if !a.passed then Except.ok false else do
  let b ← getKey (alookup ds "requires_additional_information")
    "requires_additional_information"
  if b.passed then Except.ok false else do
  let c ← getKey (alookup ds "is_speculative") "is_speculative"
  if c.passed then Except.ok false else do
  let d ← getKey (alookup ds "is_confident") "is_confident"
  Except.ok d.passed

/-!
### Derived characterizations

The following definitions restate the per-(record, metric) effect of the
loop body of `compare_results` in closed form; they are proved equal to
the embedded code below and are what the claims are checked against.
-/

/-- The per-metric stats update performed for one record: the `tick` of
`comparison.py` lines 66-85 when both the backend value and the DeepEval
entry for the metric exist, the identity otherwise. -/
def tickFor (be : List (String × Bool)) (scores : List (String × ScoreEntry))
    (m : String) : MetricStats → MetricStats :=
  match alookup be m, alookup scores m with
  | some bv, some e => tick bv e.passed
  | _, _ => id

/-- The disagreement entry one (record, metric) pair contributes: present
exactly when both values exist and differ, carrying the fields of
`comparison.py` lines 88-96 with the `"N/A"` placeholder for an absent
reason. -/
def entryFor (r : Result) (be : List (String × Bool))
    (scores : List (String × ScoreEntry)) (m : String) : Option Disagreement :=
  match alookup be m, alookup scores m with
  | some bv, some e =>
    if bv == e.passed then none
    else some { file_name := r.file_name.getD "", question := r.question.getD "",
                metric := m, backend_value := bv, deepeval_value := e.passed,
                deepeval_score := e.score, deepeval_reason := e.reason.getD "N/A" }
  | _, _ => none

/-- Whether a record is routed to `successful_evaluations` (the negation of
the failure guard of `comparison.py` line 49). -/
def evaluatedB (r : Result) : Bool :=
  !(truthyOptStr r.error || !truthyScores r.deepeval_scores)

/-- The disagreement entries a single record contributes, in the fixed
metric order: empty for a failed record, otherwise one entry per metric
whose two boolean judgments exist and differ.  The composite comparison
contributes nothing here. -/
def recordDisagreements (r : Result) : List Disagreement :=
  if evaluatedB r then
    metric_names.filterMap
      (entryFor r (r.backend_evaluation.getD []) (r.deepeval_scores.getD []))
  else []

/-- All disagreement entries of a run, record by record in input order. -/
def allDisagreements (rs : List Result) : List Disagreement :=
  (rs.map recordDisagreements).flatten

/-- The nested stats updates the metric loop performs on the metric dict. -/
def applyMetricUpdates (be : List (String × Bool))
    (scores : List (String × ScoreEntry)) (l : List String)
    (mc : List (String × MetricStats)) : List (String × MetricStats) :=
  l.foldl (fun mc' m => updateA mc' m (tickFor be scores m)) mc

/-- Records on which `compare_results` is exception-free: either the record
is routed to the failure counter, or every field the loop accesses by a
raising lookup is present (the four metric entries of the scores dict, the
backend evaluation, the identity fields and the precomputed composite). -/
def wellFormed (r : Result) : Bool :=
  !(evaluatedB r) ||
  (r.backend_evaluation.isSome && r.file_name.isSome && r.question.isSome &&
   r.deepeval_comprehensive_answer.isSome &&
   metric_names.all (fun m => (alookup (r.deepeval_scores.getD []) m).isSome))

/-- Total extraction of a comparison output (used to state closed facts
about concrete runs; the default is never reached on an ok run). -/
def okOr (d : Comparison) : Except PyErr Comparison → Comparison
  | Except.ok c => c
  | Except.error _ => d

/-- The output of `compare_results` on the empty input. -/
def emptyComparison : Comparison := finalize 0 initState

/-- Total extraction of an aggregation state. -/
def okOrState (d : CompState) : Except PyErr CompState → CompState
  | Except.ok st => st
  | Except.error _ => d

/-- The counting invariants of one metric's statistics. -/
def statsInv (s : MetricStats) : Prop :=
  s.agreements + s.disagreements = s.total ∧
  s.backend_true + s.backend_false = s.total ∧
  s.deepeval_true + s.deepeval_false = s.total

/-!
### Concrete fixtures

Small concrete records used to evaluate the embedded code on explicit
inputs (counterexamples and witnesses of the claims below).
-/

deriving instance DecidableEq for Except

/-- Whether an `Except` value is a normal return. -/
def isOkE {α : Type} : Except PyErr α → Bool
  | Except.ok _ => true
  | Except.error _ => false

/-- A sample DeepEval score entry with verdict `p`. -/
def sampleEntry (p : Bool) : ScoreEntry :=
  { score := 1, threshold := 1, passed := p, reason := some "ok" }

/-- A scores dict holding all four metrics with the given verdicts. -/
def sampleScores (p1 p2 p3 p4 : Bool) : List (String × ScoreEntry) :=
  [("is_question_answered", sampleEntry p1),
   ("requires_additional_information", sampleEntry p2),
   ("is_speculative", sampleEntry p3),
   ("is_confident", sampleEntry p4)]

/-- A fully well-formed record on which both judges agree everywhere
(the shape of Scenario A of the specification). -/
def rA : Result :=
  { file_name := some "f.pdf", question := some "q?",
    backend_evaluation := some
      [("is_question_answered", true),
       ("requires_additional_information", false),
       ("is_speculative", false), ("is_confident", true)],
    deepeval_scores := some (sampleScores true false false true),
    deepeval_comprehensive_answer := some true, error := none }

/-- A record whose external judgment is present and non-empty but lacks
the entries for three of the four metric names. -/
def rBad : Result :=
  { rA with deepeval_scores := some [("is_question_answered", sampleEntry true)] }

/-- A record with a truthy error field and a complete external judgment. -/
def rErr : Result := { rA with error := some "API timeout" }

/-- The Scenario-B family: backend says `is_question_answered` is true and
the external judge failed it; the other three flags agree, with the given
values; the precomputed external composite is the formula value (false,
since the external `is_question_answered` verdict is false). -/
def rB (b2 b3 b4 : Bool) : Result :=
  { file_name := some "f.pdf", question := some "q?",
    backend_evaluation := some
      [("is_question_answered", true),
       ("requires_additional_information", b2),
       ("is_speculative", b3), ("is_confident", b4)],
    deepeval_scores := some (sampleScores false b2 b3 b4),
    deepeval_comprehensive_answer := some false, error := none }

/-- The Scenario-D record: the backend key
`requires_additional_information` is absent, the other three are present. -/
def rD : Result :=
  { rA with backend_evaluation :=
              some [("is_question_answered", true),
                    ("is_speculative", false), ("is_confident", true)] }

/-- An evaluated record whose backend judgment is an empty dict. -/
def rEB : Result :=
  { rA with backend_evaluation := some [],
            deepeval_comprehensive_answer := some false }

/-!
### Basic lemmas about the association-list operations and the monad
-/

theorem except_bind_ok {α β : Type} (a : α) (f : α → Except PyErr β) :
    (Except.ok a >>= f) = f a := rfl

theorem except_bind_error {α β : Type} (e : PyErr) (f : α → Except PyErr β) :
    ((Except.error e : Except PyErr α) >>= f) = Except.error e := rfl

theorem except_pure {α : Type} (a : α) :
    (pure a : Except PyErr α) = Except.ok a := rfl

theorem okOr_eq (d : Comparison) (e : Except PyErr Comparison)
    (h : isOkE e = true) : e = Except.ok (okOr d e) := by
  cases e with
  | ok c => rfl
  | error err => simp [isOkE] at h

theorem okOrState_eq (d : CompState) (e : Except PyErr CompState)
    (h : isOkE e = true) : e = Except.ok (okOrState d e) := by
  cases e with
  | ok st => rfl
  | error err => simp [isOkE] at h

theorem alookup_updateA_eq {β : Type} (l : List (String × β)) (k : String)
    (f : β → β) : alookup (updateA l k f) k = Option.map f (alookup l k) := by
  induction l with
  | nil => rfl
  | cons p rest ih =>
    obtain ⟨k0, v⟩ := p
    simp only [updateA]
    by_cases h : k0 = k
    · rw [if_pos h]
      simp [alookup, h]
    · rw [if_neg h]
      simp [alookup, h, ih]

theorem alookup_updateA_ne {β : Type} (l : List (String × β)) (k k' : String)
    (f : β → β) (h : k' ≠ k) :
    alookup (updateA l k f) k' = alookup l k' := by
  induction l with
  | nil => rfl
  | cons p rest ih =>
    obtain ⟨k0, v⟩ := p
    simp only [updateA]
    by_cases h0 : k0 = k
    · subst h0
      rw [if_pos rfl]
      simp [alookup, Ne.symm h, ih]
    · rw [if_neg h0]
      by_cases h1 : k0 = k'
      · simp [alookup, h1]
      · simp [alookup, h1, ih]

theorem updateA_id {β : Type} (l : List (String × β)) (k : String) :
    updateA l k id = l := by
  induction l with
  | nil => rfl
  | cons p rest ih =>
    obtain ⟨k0, v⟩ := p
    simp only [updateA]
    by_cases h : k0 = k
    · rw [if_pos h]
      simp [ih]
    · rw [if_neg h]
      simp [ih]

theorem updateA_forall {β : Type} {P : β → Prop} (l : List (String × β))
    (k : String) (f : β → β) (hl : ∀ p ∈ l, P p.2) (hf : ∀ s, P s → P (f s)) :
    ∀ p ∈ updateA l k f, P p.2 := by
  induction l with
  | nil => intro p hp; cases hp
  | cons q rest ih =>
    obtain ⟨k0, v⟩ := q
    intro p hp
    simp only [updateA] at hp
    have hrest : ∀ p' ∈ rest, P p'.2 :=
      fun p' hp' => hl p' (List.mem_cons_of_mem _ hp')
    by_cases h : k0 = k
    · rw [if_pos h, List.mem_cons] at hp
      rcases hp with rfl | hp
      · exact hf v (hl (k0, v) (List.mem_cons_self (k0, v) rest))
      · exact ih hrest p hp
    · rw [if_neg h, List.mem_cons] at hp
      rcases hp with rfl | hp
      · exact hl (k0, v) (List.mem_cons_self (k0, v) rest)
      · exact ih hrest p hp

/-!
### Characterization of the metric loop
-/

theorem processMetric_ok_char (r : Result) (be : List (String × Bool))
    (scores : List (String × ScoreEntry))
    (acc acc' : List (String × MetricStats) × List Disagreement) (m : String)
    (h : processMetric r be scores acc m = Except.ok acc') :
    acc'.1 = updateA acc.1 m (tickFor be scores m) ∧
    acc'.2 = acc.2 ++ (entryFor r be scores m).toList := by
  cases hs : alookup scores m with
  | none =>
    simp [processMetric, hs, getKey, except_bind_error] at h
  | some e =>
    cases hb : alookup be m with
    | none =>
      simp only [processMetric, hs, hb, getKey, except_bind_ok,
        Except.ok.injEq] at h
      subst h
      simp [tickFor, entryFor, hs, hb, updateA_id]
    | some bv =>
      by_cases hpb : (bv == e.passed) = true
      · simp only [processMetric, hs, hb, getKey, except_bind_ok, hpb,
          if_true, Except.ok.injEq] at h
        subst h
        simp [tickFor, entryFor, hs, hb, hpb]
      · have hne : ¬ bv = e.passed := by simpa using hpb
        cases hfn : r.file_name with
        | none =>
          simp [processMetric, hs, hb, hfn, getKey, except_bind_ok,
            except_bind_error, hpb, hne] at h
        | some fn =>
          cases hq : r.question with
          | none =>
            simp [processMetric, hs, hb, hfn, hq, getKey, except_bind_ok,
              except_bind_error, hpb, hne] at h
          | some q =>
            simp only [processMetric, hs, hb, hfn, hq, getKey,
              except_bind_ok, hpb, if_false, Bool.false_eq_true,
              if_neg, Except.ok.injEq] at h
            rw [← h]
            simp [tickFor, entryFor, hs, hb, hpb, hfn, hq]

theorem processMetric_isOk (r : Result) (be : List (String × Bool))
    (scores : List (String × ScoreEntry))
    (acc : List (String × MetricStats) × List Disagreement) (m : String)
    (hs : (alookup scores m).isSome = true)
    (hf : r.file_name.isSome = true) (hq : r.question.isSome = true) :
    ∃ acc', processMetric r be scores acc m = Except.ok acc' := by
  obtain ⟨e, he⟩ := Option.isSome_iff_exists.mp hs
  obtain ⟨fn, hfn⟩ := Option.isSome_iff_exists.mp hf
  obtain ⟨q, hq'⟩ := Option.isSome_iff_exists.mp hq
  cases hb : alookup be m with
  | none =>
    refine ⟨acc, ?_⟩
    simp [processMetric, he, hb, getKey, except_bind_ok]
  | some bv =>
    by_cases hpb : (bv == e.passed) = true
    · have heq : bv = e.passed := by simpa using hpb
      refine ⟨(updateA acc.1 m (tick bv e.passed), acc.2), ?_⟩
      simp [processMetric, he, hb, getKey, except_bind_ok, heq]
    · have hne : ¬ bv = e.passed := by simpa using hpb
      refine ⟨(updateA acc.1 m (tick bv e.passed),
        acc.2 ++ [{ file_name := fn, question := q, metric := m,
                    backend_value := bv, deepeval_value := e.passed,
                    deepeval_score := e.score,
                    deepeval_reason := e.reason.getD "N/A" }]), ?_⟩
      simp [processMetric, he, hb, hfn, hq', getKey, except_bind_ok, hne]

theorem foldlM_processMetric_char (r : Result) (be : List (String × Bool))
    (scores : List (String × ScoreEntry)) :
    ∀ (l : List String) (acc acc' : List (String × MetricStats) × List Disagreement),
      List.foldlM (processMetric r be scores) acc l = Except.ok acc' →
      acc'.1 = applyMetricUpdates be scores l acc.1 ∧
      acc'.2 = acc.2 ++ l.filterMap (entryFor r be scores) := by
  intro l
  induction l with
  | nil =>
    intro acc acc' h
    simp only [List.foldlM_nil, except_pure, Except.ok.injEq] at h
    subst h
    simp [applyMetricUpdates]
  | cons m rest ih =>
    intro acc acc' h
    rw [List.foldlM_cons] at h
    cases hm : processMetric r be scores acc m with
    | error e =>
      rw [hm, except_bind_error] at h
      cases h
    | ok acc1 =>
      rw [hm, except_bind_ok] at h
      obtain ⟨h1, h2⟩ := processMetric_ok_char r be scores acc acc1 m hm
      obtain ⟨h1', h2'⟩ := ih acc1 acc' h
      constructor
      · rw [h1', h1]
        simp [applyMetricUpdates]
      · rw [h2', h2, List.filterMap_cons]
        cases he : entryFor r be scores m <;> simp [List.append_assoc]

theorem foldlM_processMetric_isOk (r : Result) (be : List (String × Bool))
    (scores : List (String × ScoreEntry))
    (hf : r.file_name.isSome = true) (hq : r.question.isSome = true) :
    ∀ (l : List String), (∀ m ∈ l, (alookup scores m).isSome = true) →
      ∀ acc, ∃ acc', List.foldlM (processMetric r be scores) acc l = Except.ok acc' := by
  intro l
  induction l with
  | nil =>
    intro _ acc
    exact ⟨acc, rfl⟩
  | cons m rest ih =>
    intro hall acc
    obtain ⟨acc1, h1⟩ :=
      processMetric_isOk r be scores acc m
        (hall m (List.mem_cons_self m rest)) hf hq
    obtain ⟨acc', h'⟩ :=
      ih (fun m' hm' => hall m' (List.mem_cons_of_mem _ hm')) acc1
    refine ⟨acc', ?_⟩
    rw [List.foldlM_cons, h1, except_bind_ok, h']

/-!
### Characterization of the record loop
-/

theorem processResult_ok_char (st : CompState) (r : Result) (st' : CompState)
    (h : processResult st r = Except.ok st') :
    (evaluatedB r = false ∧ st' = { st with failed := st.failed + 1 }) ∨
    (evaluatedB r = true ∧
      ∃ be scores b acc,
        r.backend_evaluation = some be ∧ r.deepeval_scores = some scores ∧
        r.deepeval_comprehensive_answer = some b ∧
        List.foldlM (processMetric r be scores)
          (st.metric_comparisons, st.disagreements) metric_names =
          Except.ok acc ∧
        st' = { st with successful := st.successful + 1,
                        metric_comparisons := acc.1, disagreements := acc.2,
                        comp_agreements :=
                          if backendComp be == b then st.comp_agreements + 1
                          else st.comp_agreements,
                        comp_disagreements :=
                          if backendComp be == b then st.comp_disagreements
                          else st.comp_disagreements + 1 }) := by
  cases hg : truthyOptStr r.error || !truthyScores r.deepeval_scores with
  | true =>
    left
    constructor
    · simp [evaluatedB, hg]
    · simp only [processResult, hg, if_true, Except.ok.injEq] at h
      exact h.symm
  | false =>
    right
    refine ⟨by simp [evaluatedB, hg], ?_⟩
    have hge : truthyOptStr r.error = false := by
      cases he : truthyOptStr r.error
      · rfl
      · rw [he] at hg; simp at hg
    have hgs : truthyScores r.deepeval_scores = true := by
      cases hts : truthyScores r.deepeval_scores
      · rw [hts] at hg; simp at hg
      · rfl
    cases hbe : r.backend_evaluation with
    | none =>
      simp [processResult, hge, hgs, hbe, getKey, except_bind_error] at h
    | some be =>
      cases hsc : r.deepeval_scores with
      | none =>
        rw [hsc] at hgs
        simp [truthyScores] at hgs
      | some scores =>
        rw [hsc] at hgs
        cases hacc : List.foldlM (processMetric r be scores)
            (st.metric_comparisons, st.disagreements) metric_names with
        | error e =>
          simp [processResult, hge, hgs, hbe, hsc, hacc, getKey,
            except_bind_ok, except_bind_error] at h
        | ok acc =>
          cases hdc : r.deepeval_comprehensive_answer with
          | none =>
            simp [processResult, hge, hgs, hbe, hsc, hacc, hdc, getKey,
              except_bind_ok, except_bind_error] at h
          | some b =>
            refine ⟨be, scores, b, acc, rfl, rfl, rfl, hacc, ?_⟩
            cases hcmp : backendComp be == b with
            | true =>
              simp only [processResult, hge, hgs, hbe, hsc, hacc, hdc,
                getKey, except_bind_ok, hcmp, if_true, Bool.not_true,
                Bool.false_or, Bool.false_eq_true, if_false,
                Except.ok.injEq] at h
              rw [← h]
              simp [hcmp]
            | false =>
              simp only [processResult, hge, hgs, hbe, hsc, hacc, hdc,
                getKey, except_bind_ok, hcmp, Bool.not_true,
                Bool.false_or, Bool.false_eq_true, if_false,
                Except.ok.injEq] at h
              rw [← h]
              simp [hcmp]

theorem processResult_isOk (st : CompState) (r : Result)
    (hw : wellFormed r = true) :
    ∃ st', processResult st r = Except.ok st' := by
  cases hg : truthyOptStr r.error || !truthyScores r.deepeval_scores with
  | true =>
    exact ⟨{ st with failed := st.failed + 1 }, by simp [processResult, hg]⟩
  | false =>
    have hev : evaluatedB r = true := by simp [evaluatedB, hg]
    have hw' : (r.backend_evaluation.isSome && r.file_name.isSome &&
        r.question.isSome && r.deepeval_comprehensive_answer.isSome &&
        metric_names.all
          (fun m => (alookup (r.deepeval_scores.getD []) m).isSome)) = true := by
      simpa [wellFormed, hev] using hw
    simp only [Bool.and_eq_true] at hw'
    obtain ⟨⟨⟨⟨hbe, hfn⟩, hq⟩, hdc⟩, hall⟩ := hw'
    obtain ⟨be, hbe'⟩ := Option.isSome_iff_exists.mp hbe
    obtain ⟨b, hdc'⟩ := Option.isSome_iff_exists.mp hdc
    have hts : truthyScores r.deepeval_scores = true := by
      cases hts' : truthyScores r.deepeval_scores with
      | true => rfl
      | false => rw [hts'] at hg; simp at hg
    cases hsc : r.deepeval_scores with
    | none => rw [hsc] at hts; simp [truthyScores] at hts
    | some scores =>
      have hall' : ∀ m ∈ metric_names, (alookup scores m).isSome = true := by
        intro m hm
        have := List.all_eq_true.mp hall m hm
        simpa [hsc] using this
      obtain ⟨acc, hacc⟩ :=
        foldlM_processMetric_isOk r be scores hfn hq metric_names hall'
          (st.metric_comparisons, st.disagreements)
      have hge : truthyOptStr r.error = false := by
        cases he : truthyOptStr r.error
        · rfl
        · rw [he] at hg; simp at hg
      have hgs : truthyScores (some scores) = true := by rw [← hsc]; exact hts
      simp only [processResult, hge, hgs, hbe', hsc, hacc, hdc', getKey,
        except_bind_ok, Bool.not_true, Bool.false_or, Bool.false_eq_true,
        if_false]
      cases hcmp : backendComp be == b <;> simp [hcmp]

/-!
### Invariants and whole-fold lemmas
-/

theorem tick_statsInv (bv passed : Bool) (s : MetricStats)
    (h : statsInv s) : statsInv (tick bv passed s) := by
  obtain ⟨h1, h2, h3⟩ := h
  cases bv <;> cases passed <;>
    simp [tick, statsInv] <;> omega

theorem tickFor_statsInv (be : List (String × Bool))
    (scores : List (String × ScoreEntry)) (m : String) (s : MetricStats)
    (h : statsInv s) : statsInv (tickFor be scores m s) := by
  unfold tickFor
  cases alookup be m with
  | none => exact h
  | some bv =>
    cases alookup scores m with
    | none => exact h
    | some e => exact tick_statsInv bv e.passed s h

theorem applyMetricUpdates_forall (be : List (String × Bool))
    (scores : List (String × ScoreEntry)) :
    ∀ (l : List String) (mc : List (String × MetricStats)),
      (∀ p ∈ mc, statsInv p.2) →
      ∀ p ∈ applyMetricUpdates be scores l mc, statsInv p.2 := by
  intro l
  induction l with
  | nil => intro mc hmc; exact hmc
  | cons m rest ih =>
    intro mc hmc
    have : applyMetricUpdates be scores (m :: rest) mc =
        applyMetricUpdates be scores rest (updateA mc m (tickFor be scores m)) := by
      simp [applyMetricUpdates]
    rw [this]
    exact ih _ (updateA_forall mc m _ hmc (tickFor_statsInv be scores m))

theorem processResult_counts (st : CompState) (r : Result) (st' : CompState)
    (h : processResult st r = Except.ok st') :
    st'.successful = st.successful + (if evaluatedB r then 1 else 0) ∧
    st'.failed = st.failed + (if evaluatedB r then 0 else 1) ∧
    st'.comp_agreements + st'.comp_disagreements =
      st.comp_agreements + st.comp_disagreements +
        (if evaluatedB r then 1 else 0) ∧
    st'.disagreements = st.disagreements ++ recordDisagreements r := by
  rcases processResult_ok_char st r st' h with
    ⟨hev, rfl⟩ | ⟨hev, be, scores, b, acc, hbe, hsc, hdc, hacc, rfl⟩
  · simp [hev, recordDisagreements]
  · obtain ⟨h1, h2⟩ := foldlM_processMetric_char r be scores metric_names
      (st.metric_comparisons, st.disagreements) acc hacc
    refine ⟨by simp [hev], by simp [hev], ?_, ?_⟩
    · cases hcmp : backendComp be == b <;> simp [hev, hcmp] <;> omega
    · show acc.2 = st.disagreements ++ recordDisagreements r
      rw [h2]
      simp [recordDisagreements, hev, hbe, hsc]

theorem processResult_metricInv (st : CompState) (r : Result) (st' : CompState)
    (h : processResult st r = Except.ok st')
    (hmc : ∀ p ∈ st.metric_comparisons, statsInv p.2) :
    ∀ p ∈ st'.metric_comparisons, statsInv p.2 := by
  rcases processResult_ok_char st r st' h with
    ⟨hev, rfl⟩ | ⟨hev, be, scores, b, acc, hbe, hsc, hdc, hacc, rfl⟩
  · simpa using hmc
  · obtain ⟨h1, _⟩ := foldlM_processMetric_char r be scores metric_names
      (st.metric_comparisons, st.disagreements) acc hacc
    intro p hp
    have hp' : p ∈ acc.1 := hp
    rw [h1] at hp'
    exact applyMetricUpdates_forall be scores metric_names
      st.metric_comparisons hmc p hp'

theorem foldlM_processResult_char :
    ∀ (rs : List Result) (st st' : CompState),
      List.foldlM processResult st rs = Except.ok st' →
      st'.successful =
        st.successful + (rs.filter (fun r => evaluatedB r)).length ∧
      st'.failed =
        st.failed + (rs.filter (fun r => !evaluatedB r)).length ∧
      st'.comp_agreements + st'.comp_disagreements =
        st.comp_agreements + st.comp_disagreements +
          (rs.filter (fun r => evaluatedB r)).length ∧
      st'.disagreements = st.disagreements ++ allDisagreements rs := by
  intro rs
  induction rs with
  | nil =>
    intro st st' h
    simp only [List.foldlM_nil, except_pure, Except.ok.injEq] at h
    subst h
    simp [allDisagreements]
  | cons r rest ih =>
    intro st st' h
    rw [List.foldlM_cons] at h
    cases hr : processResult st r with
    | error e =>
      rw [hr, except_bind_error] at h
      cases h
    | ok st1 =>
      rw [hr, except_bind_ok] at h
      obtain ⟨c1, c2, c3, c4⟩ := processResult_counts st r st1 hr
      obtain ⟨d1, d2, d3, d4⟩ := ih st1 st' h
      have hall : allDisagreements (r :: rest) =
          recordDisagreements r ++ allDisagreements rest := by
        simp [allDisagreements]
      refine ⟨?_, ?_, ?_, ?_⟩
      · cases hev : evaluatedB r <;>
          · simp [List.filter_cons, hev, d1, c1]
            try omega
      · cases hev : evaluatedB r <;>
          · simp [List.filter_cons, hev, d2, c2]
            try omega
      · cases hev : evaluatedB r <;>
          · simp [List.filter_cons, hev, d3, c3]
            try omega
      · rw [d4, c4, hall, List.append_assoc]

theorem foldlM_processResult_metricInv :
    ∀ (rs : List Result) (st st' : CompState),
      List.foldlM processResult st rs = Except.ok st' →
      (∀ p ∈ st.metric_comparisons, statsInv p.2) →
      ∀ p ∈ st'.metric_comparisons, statsInv p.2 := by
  intro rs
  induction rs with
  | nil =>
    intro st st' h hmc
    simp only [List.foldlM_nil, except_pure, Except.ok.injEq] at h
    subst h
    exact hmc
  | cons r rest ih =>
    intro st st' h hmc
    rw [List.foldlM_cons] at h
    cases hr : processResult st r with
    | error e =>
      rw [hr, except_bind_error] at h
      cases h
    | ok st1 =>
      rw [hr, except_bind_ok] at h
      exact ih st1 st' h (processResult_metricInv st r st1 hr hmc)

theorem compare_results_ok_elim (rs : List Result) (c : Comparison)
    (h : compare_results rs = Except.ok c) :
    ∃ st, List.foldlM processResult initState rs = Except.ok st ∧
      c = finalize rs.length st := by
  unfold compare_results at h
  cases hf : List.foldlM processResult initState rs with
  | error e =>
    rw [hf] at h
    cases h
  | ok st =>
    rw [hf] at h
    refine ⟨st, rfl, ?_⟩
    simpa [Except.map] using h.symm

theorem applyMetricUpdates_alookup (be : List (String × Bool))
    (scores : List (String × ScoreEntry)) (mc : List (String × MetricStats))
    (m : String) (hm : m ∈ metric_names) :
    alookup (applyMetricUpdates be scores metric_names mc) m =
      Option.map (tickFor be scores m) (alookup mc m) := by
  have hfold : applyMetricUpdates be scores metric_names mc =
      updateA (updateA (updateA (updateA mc
        "is_question_answered" (tickFor be scores "is_question_answered"))
        "requires_additional_information"
          (tickFor be scores "requires_additional_information"))
        "is_speculative" (tickFor be scores "is_speculative"))
        "is_confident" (tickFor be scores "is_confident") := rfl
  rw [hfold]
  simp only [metric_names, List.mem_cons, List.mem_singleton,
    List.not_mem_nil, or_false] at hm
  rcases hm with rfl | rfl | rfl | rfl
  · rw [alookup_updateA_ne _ _ _ _ (by decide),
      alookup_updateA_ne _ _ _ _ (by decide),
      alookup_updateA_ne _ _ _ _ (by decide), alookup_updateA_eq]
  · rw [alookup_updateA_ne _ _ _ _ (by decide),
      alookup_updateA_ne _ _ _ _ (by decide), alookup_updateA_eq,
      alookup_updateA_ne _ _ _ _ (by decide)]
  · rw [alookup_updateA_ne _ _ _ _ (by decide), alookup_updateA_eq,
      alookup_updateA_ne _ _ _ _ (by decide),
      alookup_updateA_ne _ _ _ _ (by decide)]
  · rw [alookup_updateA_eq, alookup_updateA_ne _ _ _ _ (by decide),
      alookup_updateA_ne _ _ _ _ (by decide),
      alookup_updateA_ne _ _ _ _ (by decide)]

theorem foldlM_processResult_exists :
    ∀ (rs : List Result), (∀ r ∈ rs, wellFormed r = true) →
      ∀ st, ∃ st', List.foldlM processResult st rs = Except.ok st' := by
  intro rs
  induction rs with
  | nil => intro _ st; exact ⟨st, rfl⟩
  | cons r rest ih =>
    intro h st
    obtain ⟨st1, h1⟩ := processResult_isOk st r (h r (List.mem_cons_self r rest))
    obtain ⟨st', h'⟩ :=
      ih (fun r' hr' => h r' (List.mem_cons_of_mem _ hr')) st1
    refine ⟨st', ?_⟩
    rw [List.foldlM_cons, h1, except_bind_ok, h']

/-!
### The claims
-/

/-- C1: for every evaluated record in which all four backend flags are
present, the backend-side composite boolean of `compare_results` equals
`is_question_answered && !requires_additional_information &&
!is_speculative && is_confident`, and the external-side composite of
`evaluate_with_deepeval` is the identical formula over the four external
`passed` values.  The boolean cases of the proof enumerate the 16
combinations of the four flags, each mapping to exactly one composite
value. -/
theorem claim1_composite_formula :
    (∀ (be : List (String × Bool)) (b1 b2 b3 b4 : Bool),
      alookup be "is_question_answered" = some b1 →
      alookup be "requires_additional_information" = some b2 →
      alookup be "is_speculative" = some b3 →
      alookup be "is_confident" = some b4 →
      backendComp be = (b1 && !b2 && !b3 && b4)) ∧
    (∀ (ds : List (String × ScoreEntry)) (e1 e2 e3 e4 : ScoreEntry),
      alookup ds "is_question_answered" = some e1 →
      alookup ds "requires_additional_information" = some e2 →
      alookup ds "is_speculative" = some e3 →
      alookup ds "is_confident" = some e4 →
      comprehensiveAnswer ds =
        Except.ok (e1.passed && !e2.passed && !e3.passed && e4.passed)) := by
  constructor
  · intro be b1 b2 b3 b4 h1 h2 h3 h4
    simp [backendComp, h1, h2, h3, h4]
  · intro ds e1 e2 e3 e4 h1 h2 h3 h4
    cases hp1 : e1.passed <;> cases hp2 : e2.passed <;>
      cases hp3 : e3.passed <;> cases hp4 : e4.passed <;>
      simp [comprehensiveAnswer, h1, h2, h3, h4, getKey, except_bind_ok,
        hp1, hp2, hp3, hp4]

/-- Witness for C1 at a concrete backend dict and scores dict. -/
theorem claim1_composite_formula_witness :
    backendComp
      [("is_question_answered", true),
       ("requires_additional_information", false),
       ("is_speculative", false), ("is_confident", true)] = true ∧
    comprehensiveAnswer (sampleScores true false false true) =
      Except.ok true := by
  constructor
  · have h := claim1_composite_formula.1
      [("is_question_answered", true),
       ("requires_additional_information", false),
       ("is_speculative", false), ("is_confident", true)]
      true false false true (by decide) (by decide) (by decide) (by decide)
    simpa using h
  · have h := claim1_composite_formula.2 (sampleScores true false false true)
      (sampleEntry true) (sampleEntry false) (sampleEntry false)
      (sampleEntry true) (by decide) (by decide) (by decide) (by decide)
    simpa [sampleEntry] using h

/-- C5: for every input sequence on which `compare_results` returns, the
summary satisfies `successful_evaluations + failed_evaluations ==
total_cases`, and `total_cases` is the length of the input sequence. -/
theorem claim5_case_partition (rs : List Result) (c : Comparison)
    (h : compare_results rs = Except.ok c) :
    c.summary.successful_evaluations + c.summary.failed_evaluations =
      c.summary.total_cases ∧
    c.summary.total_cases = rs.length := by
  obtain ⟨st, hf, rfl⟩ := compare_results_ok_elim rs c h
  obtain ⟨h1, h2, _, _⟩ := foldlM_processResult_char rs initState st hf
  have hlen := List.length_eq_length_filter_add
    (l := rs) (fun r => evaluatedB r)
  simp only [initState] at h1 h2
  constructor
  · show st.successful + st.failed = rs.length
    omega
  · rfl

/-- Witness for C5 on a concrete three-record input. -/
theorem claim5_case_partition_witness :
    (okOr emptyComparison (compare_results [rA, rErr, rB false false true])).summary.successful_evaluations +
      (okOr emptyComparison (compare_results [rA, rErr, rB false false true])).summary.failed_evaluations =
    (okOr emptyComparison (compare_results [rA, rErr, rB false false true])).summary.total_cases :=
  (claim5_case_partition [rA, rErr, rB false false true]
    (okOr emptyComparison (compare_results [rA, rErr, rB false false true]))
    (okOr_eq emptyComparison _ (by decide))).1

/-- C4: after `compare_results`, every agreement rate is agreements divided
by its denominator when that denominator is positive and the sentinel `0.0`
otherwise — uniformly for the four per-metric rates (denominator `total`)
and the composite rate (denominator `successful_evaluations`) — and the
overall summary agreement rate equals the composite agreement rate. -/
theorem claim4_agreement_rates (rs : List Result) (c : Comparison)
    (h : compare_results rs = Except.ok c) :
    c.summary.agreement_rate =
      c.comprehensive_answer_comparison.agreement_rate ∧
    c.comprehensive_answer_comparison.agreement_rate =
      (if 0 < c.summary.successful_evaluations then
        (c.comprehensive_answer_comparison.agreements : Rat) /
          (c.summary.successful_evaluations : Rat)
       else 0) ∧
    (∀ m s, (m, s) ∈ c.metric_comparisons →
      s.agreement_rate =
        (if 0 < s.total then (s.agreements : Rat) / (s.total : Rat) else 0)) := by
  obtain ⟨st, hf, rfl⟩ := compare_results_ok_elim rs c h
  refine ⟨?_, ?_, ?_⟩
  · by_cases hpos : st.successful > 0 <;> simp [finalize, hpos]
  · by_cases hpos : st.successful > 0 <;> simp [finalize, hpos]
  · intro m s hms
    simp only [finalize, List.mem_map] at hms
    obtain ⟨p, hp, hps⟩ := hms
    simp only [Prod.mk.injEq] at hps
    obtain ⟨hm, hs⟩ := hps
    subst hs
    by_cases hpos : 0 < p.2.total <;> simp [hpos]

/-- Witness for C4 on a concrete run. -/
theorem claim4_agreement_rates_witness :
    (okOr emptyComparison (compare_results [rA])).summary.agreement_rate =
      (okOr emptyComparison
        (compare_results [rA])).comprehensive_answer_comparison.agreement_rate :=
  (claim4_agreement_rates [rA] (okOr emptyComparison (compare_results [rA]))
    (okOr_eq emptyComparison _ (by decide))).1

/-- C6: after `compare_results`, every per-metric statistics record
satisfies `agreements + disagreements == total` and
`backend_true + backend_false == total == deepeval_true + deepeval_false`. -/
theorem claim6_metric_tally_invariants (rs : List Result) (c : Comparison)
    (h : compare_results rs = Except.ok c) :
    ∀ m s, (m, s) ∈ c.metric_comparisons →
      s.agreements + s.disagreements = s.total ∧
      s.backend_true + s.backend_false = s.total ∧
      s.deepeval_true + s.deepeval_false = s.total := by
  obtain ⟨st, hf, rfl⟩ := compare_results_ok_elim rs c h
  have hinit : ∀ p ∈ initState.metric_comparisons, statsInv p.2 := by
    intro p hp
    simp only [initState, metric_names, List.map_cons, List.map_nil,
      List.mem_cons, List.not_mem_nil, or_false] at hp
    rcases hp with rfl | rfl | rfl | rfl <;> exact ⟨rfl, rfl, rfl⟩
  have hst := foldlM_processResult_metricInv rs initState st hf hinit
  intro m s hms
  simp only [finalize, List.mem_map] at hms
  obtain ⟨p, hp, hps⟩ := hms
  simp only [Prod.mk.injEq] at hps
  obtain ⟨hm, hs⟩ := hps
  obtain ⟨i1, i2, i3⟩ := hst p hp
  rw [← hs]
  exact ⟨by simpa using i1, by simpa using i2, by simpa using i3⟩

/-- Witness for C6: the invariant instantiated at the first per-metric
entry of a concrete run. -/
theorem claim6_metric_tally_invariants_witness :
    (((okOr emptyComparison (compare_results [rA])).metric_comparisons.head
        (by decide)).2).agreements +
      (((okOr emptyComparison (compare_results [rA])).metric_comparisons.head
        (by decide)).2).disagreements =
      (((okOr emptyComparison (compare_results [rA])).metric_comparisons.head
        (by decide)).2).total :=
  (claim6_metric_tally_invariants [rA]
    (okOr emptyComparison (compare_results [rA]))
    (okOr_eq emptyComparison _ (by decide))
    (((okOr emptyComparison (compare_results [rA])).metric_comparisons.head
        (by decide)).1)
    (((okOr emptyComparison (compare_results [rA])).metric_comparisons.head
        (by decide)).2)
    (List.head_mem (by decide))).1

/-- C7 counterexample: a record whose external judgment is fully present
but whose `error` field is a truthy string is routed to
`failed_evaluations`, so presence of the external judgment alone does not
imply the record is counted successful — the claimed equivalence fails. -/
theorem claim7_counterexample :
    rErr.deepeval_scores.isSome = true ∧
    truthyScores rErr.deepeval_scores = true ∧
    isOkE (compare_results [rErr]) = true ∧
    (okOr emptyComparison
      (compare_results [rErr])).summary.successful_evaluations = 0 ∧
    (okOr emptyComparison
      (compare_results [rErr])).summary.failed_evaluations = 1 := by
  decide

/-- C7 amended: a record is counted successful if and only if its error
field is falsy AND its external judgment is present and non-empty
(`evaluatedB`); any other record only increments the failure counter and
leaves every statistic and the disagreement list unchanged. -/
theorem claim7_failed_routing :
    (∀ (rs : List Result) (c : Comparison),
      compare_results rs = Except.ok c →
      c.summary.successful_evaluations =
        (rs.filter (fun r => evaluatedB r)).length ∧
      c.summary.failed_evaluations =
        (rs.filter (fun r => !evaluatedB r)).length) ∧
    (∀ (st : CompState) (r : Result), evaluatedB r = false →
      processResult st r = Except.ok { st with failed := st.failed + 1 }) := by
  constructor
  · intro rs c h
    obtain ⟨st, hf, rfl⟩ := compare_results_ok_elim rs c h
    obtain ⟨h1, h2, _, _⟩ := foldlM_processResult_char rs initState st hf
    simp only [initState] at h1 h2
    constructor
    · show st.successful = _
      omega
    · show st.failed = _
      omega
  · intro st r hev
    have hg : (truthyOptStr r.error || !truthyScores r.deepeval_scores) = true := by
      cases hx : truthyOptStr r.error || !truthyScores r.deepeval_scores
      · rw [evaluatedB, hx] at hev
        cases hev
      · rfl
    simp [processResult, hg]

/-- Witness for C7's amended statement on concrete inputs. -/
theorem claim7_failed_routing_witness :
    (okOr emptyComparison
      (compare_results [rErr, rA])).summary.successful_evaluations =
      ([rErr, rA].filter (fun r => evaluatedB r)).length ∧
    processResult initState rErr =
      Except.ok { initState with failed := initState.failed + 1 } :=
  ⟨(claim7_failed_routing.1 [rErr, rA]
      (okOr emptyComparison (compare_results [rErr, rA]))
      (okOr_eq emptyComparison _ (by decide))).1,
   claim7_failed_routing.2 initState rErr (by decide)⟩

/-- C2 counterexample: a record whose external judgment is present and
non-empty but lacks the `requires_additional_information` entry makes
`compare_results` raise a `KeyError` out of the reduction, so the claim
that no input sequence ever raises is false. -/
theorem claim2_counterexample :
    truthyScores rBad.deepeval_scores = true ∧
    compare_results [rBad] =
      Except.error (PyErr.keyError "requires_additional_information") := by
  decide

/-- C2 amended: `compare_results` raises no exception on sequences whose
records each either are routed to the failure counter (absent or empty
external judgment, or truthy error field) or carry every field the loop
accesses by a raising lookup: the backend evaluation, file name, question,
precomputed composite, and all four metric entries of the scores dict.  A
record outside this class (e.g. a present non-empty external judgment
missing one metric entry) can raise a `KeyError`. -/
theorem claim2_no_exception_on_wellformed (rs : List Result)
    (h : ∀ r ∈ rs, wellFormed r = true) :
    ∃ c, compare_results rs = Except.ok c := by
  obtain ⟨st', hst⟩ := foldlM_processResult_exists rs h initState
  refine ⟨finalize rs.length st', ?_⟩
  unfold compare_results
  rw [hst]
  rfl

/-- Witness for C2's amended statement on a concrete mixed input. -/
theorem claim2_no_exception_on_wellformed_witness :
    (∀ r ∈ [rA, rErr], wellFormed r = true) ∧
    ∃ c, compare_results [rA, rErr] = Except.ok c :=
  ⟨by decide, claim2_no_exception_on_wellformed [rA, rErr] (by decide)⟩

/-- C3 counterexample: the record `rB false false false` satisfies the
claim's premise (evaluated; backend `is_question_answered` true while the
external verdict is false; the other three metrics agree), yet both
composite booleans are false, so the run records zero composite
disagreements — not the claimed one. -/
theorem claim3_counterexample :
    evaluatedB (rB false false false) = true ∧
    alookup ((rB false false false).backend_evaluation.getD [])
      "is_question_answered" = some true ∧
    (alookup ((rB false false false).deepeval_scores.getD [])
      "is_question_answered").map (fun e => e.passed) = some false ∧
    alookup ((rB false false false).backend_evaluation.getD [])
      "requires_additional_information" =
      (alookup ((rB false false false).deepeval_scores.getD [])
        "requires_additional_information").map (fun e => e.passed) ∧
    alookup ((rB false false false).backend_evaluation.getD [])
      "is_speculative" =
      (alookup ((rB false false false).deepeval_scores.getD [])
        "is_speculative").map (fun e => e.passed) ∧
    alookup ((rB false false false).backend_evaluation.getD [])
      "is_confident" =
      (alookup ((rB false false false).deepeval_scores.getD [])
        "is_confident").map (fun e => e.passed) ∧
    isOkE (compare_results [rB false false false]) = true ∧
    (okOr emptyComparison
      (compare_results [rB false false false])).disagreements.length = 1 ∧
    (okOr emptyComparison (compare_results
      [rB false false false])).comprehensive_answer_comparison.disagreements
      = 0 ∧
    (okOr emptyComparison (compare_results
      [rB false false false])).comprehensive_answer_comparison.agreements
      = 1 := by
  decide

/-- C3 amended: for the Scenario-B record family (backend
`is_question_answered` true, external verdict false, other three metrics
agreeing with values `b2 b3 b4`, external composite precomputed by the
formula, hence false), the `is_question_answered` statistics show 0
agreements and 1 disagreement, the disagreement list has exactly the one
`is_question_answered` entry — and the composite comparison records a
mismatch exactly when the backend composite is true, i.e. when
`requires_additional_information` and `is_speculative` are false and
`is_confident` is true; otherwise both composites are false and a
composite agreement is recorded. -/
theorem claim3_scenario_b (b2 b3 b4 : Bool) :
    isOkE (compare_results [rB b2 b3 b4]) = true ∧
    (alookup (okOr emptyComparison
        (compare_results [rB b2 b3 b4])).metric_comparisons
      "is_question_answered").map
        (fun s => (s.agreements, s.disagreements, s.total)) =
      some (0, 1, 1) ∧
    (okOr emptyComparison (compare_results [rB b2 b3 b4])).disagreements =
      [{ file_name := "f.pdf", question := "q?",
         metric := "is_question_answered", backend_value := true,
         deepeval_value := false, deepeval_score := 1,
         deepeval_reason := "ok" }] ∧
    (okOr emptyComparison (compare_results
      [rB b2 b3 b4])).comprehensive_answer_comparison.disagreements =
      (if !b2 && !b3 && b4 then 1 else 0) ∧
    (okOr emptyComparison (compare_results
      [rB b2 b3 b4])).comprehensive_answer_comparison.agreements =
      (if !b2 && !b3 && b4 then 0 else 1) := by
  cases b2 <;> cases b3 <;> cases b4 <;> decide

/-- C9: the disagreement list of a run is exactly the concatenation, in
record order, of each record's per-metric disagreement entries in the
fixed metric order (`recordDisagreements`): one entry per (record, metric)
pair whose two boolean judgments exist and differ, carrying the record's
file name and question, the metric name, both verdicts, the external score
and the external rationale with the `"N/A"` placeholder when the reason is
absent.  Failed records and the composite comparison contribute no
entries. -/
theorem claim9_disagreement_list (rs : List Result) (c : Comparison)
    (h : compare_results rs = Except.ok c) :
    c.disagreements = allDisagreements rs := by
  obtain ⟨st, hf, rfl⟩ := compare_results_ok_elim rs c h
  obtain ⟨_, _, _, h4⟩ := foldlM_processResult_char rs initState st hf
  show st.disagreements = _
  rw [h4]
  simp [initState]

/-- Witness for C9 on a run with one disagreeing record and one failed
record. -/
theorem claim9_disagreement_list_witness :
    (okOr emptyComparison
      (compare_results [rB false false true, rErr])).disagreements =
      allDisagreements [rB false false true, rErr] :=
  claim9_disagreement_list [rB false false true, rErr]
    (okOr emptyComparison (compare_results [rB false false true, rErr]))
    (okOr_eq emptyComparison _ (by decide))

theorem tickFor_none_left (be : List (String × Bool))
    (scores : List (String × ScoreEntry)) (m : String)
    (h : alookup be m = none) : tickFor be scores m = id := by
  unfold tickFor
  rw [h]

theorem tickFor_some_some (be : List (String × Bool))
    (scores : List (String × ScoreEntry)) (m : String) (bv : Bool)
    (e : ScoreEntry) (hb : alookup be m = some bv)
    (hs : alookup scores m = some e) :
    tickFor be scores m = tick bv e.passed := by
  unfold tickFor
  rw [hb, hs]

/-- C8: for an evaluated record whose backend value for one metric is
absent, that metric's statistics entry is left completely unchanged
(excluded from total, marginal counts, agreements and disagreements),
while every other metric of the same record whose two values exist is
updated by the ordinary `tick`. -/
theorem claim8_partial_metric (r : Result) (be : List (String × Bool))
    (scores : List (String × ScoreEntry)) (m : String) (st st' : CompState)
    (hev : evaluatedB r = true)
    (hbe : r.backend_evaluation = some be)
    (hsc : r.deepeval_scores = some scores)
    (hm : m ∈ metric_names)
    (habs : alookup be m = none)
    (h : processResult st r = Except.ok st') :
    alookup st'.metric_comparisons m = alookup st.metric_comparisons m ∧
    (∀ m', m' ∈ metric_names → m' ≠ m →
      ∀ bv e, alookup be m' = some bv → alookup scores m' = some e →
        alookup st'.metric_comparisons m' =
          Option.map (tick bv e.passed) (alookup st.metric_comparisons m')) := by
  rcases processResult_ok_char st r st' h with
    ⟨hev', _⟩ | ⟨_, be', scores', b, acc, hbe', hsc', hdc, hacc, rfl⟩
  · rw [hev'] at hev
    cases hev
  · have hbeq : be = be' := by
      injection hbe.symm.trans hbe'
    have hseq : scores = scores' := by
      injection hsc.symm.trans hsc'
    subst hbeq
    subst hseq
    obtain ⟨h1, _⟩ := foldlM_processMetric_char r be scores metric_names
      (st.metric_comparisons, st.disagreements) acc hacc
    constructor
    · show alookup acc.1 m = alookup st.metric_comparisons m
      rw [h1, applyMetricUpdates_alookup be scores st.metric_comparisons m hm,
        tickFor_none_left be scores m habs]
      simp
    · intro m' hm' hne bv e hbv he
      show alookup acc.1 m' =
        Option.map (tick bv e.passed) (alookup st.metric_comparisons m')
      rw [h1, applyMetricUpdates_alookup be scores st.metric_comparisons m' hm',
        tickFor_some_some be scores m' bv e hbv he]

/-- Witness for C8: the Scenario-D record leaves the
`requires_additional_information` entry untouched. -/
theorem claim8_partial_metric_witness :
    alookup (okOrState initState
        (processResult initState rD)).metric_comparisons
      "requires_additional_information" =
      alookup initState.metric_comparisons
        "requires_additional_information" :=
  (claim8_partial_metric rD
    [("is_question_answered", true), ("is_speculative", false),
     ("is_confident", true)]
    (sampleScores true false false true)
    "requires_additional_information" initState
    (okOrState initState (processResult initState rD))
    (by decide) (by decide) (by decide) (by decide) (by decide)
    (okOrState_eq initState _ (by decide))).1

/-- C10: every evaluated record is included in the composite comparison —
it increments exactly one of the two composite counters — regardless of
which backend flags are present, because an absent backend flag is read as
False by the composite formula; in particular a backend dict in which all
four flags are absent (e.g. the empty dict) yields backend composite
False. -/
theorem claim10_composite_inclusion :
    (∀ (st : CompState) (r : Result) (st' : CompState),
      evaluatedB r = true → processResult st r = Except.ok st' →
      st'.comp_agreements + st'.comp_disagreements =
        st.comp_agreements + st.comp_disagreements + 1) ∧
    (∀ be : List (String × Bool),
      (∀ m ∈ metric_names, alookup be m = none) → backendComp be = false) ∧
    backendComp [] = false := by
  refine ⟨?_, ?_, rfl⟩
  · intro st r st' hev h
    obtain ⟨_, _, h3, _⟩ := processResult_counts st r st' h
    simpa [hev] using h3
  · intro be hall
    have h1 := hall "is_question_answered" (by decide)
    have h2 := hall "requires_additional_information" (by decide)
    have h3 := hall "is_speculative" (by decide)
    have h4 := hall "is_confident" (by decide)
    simp [backendComp, h1, h2, h3, h4]

/-- Witness for C10: an evaluated record with an empty backend dict still
increments exactly one composite counter. -/
theorem claim10_composite_inclusion_witness :
    (okOrState initState (processResult initState rEB)).comp_agreements +
      (okOrState initState (processResult initState rEB)).comp_disagreements =
      initState.comp_agreements + initState.comp_disagreements + 1 ∧
    backendComp [] = false :=
  ⟨claim10_composite_inclusion.1 initState rEB
      (okOrState initState (processResult initState rEB))
      (by decide) (okOrState_eq initState _ (by decide)),
   claim10_composite_inclusion.2.2⟩
